import Mathlib

/-!
Verification of the TCP relay data-path of a shadowsocks local proxy.

The development shallowly embeds two source files:
* crates/shadowsocks-service/src/local/net/tcp/auto_proxy_stream.rs
  (the AutoProxyClientStream sum type, its connect functions, the in-band
  DNS sniffer check_dns_msg and the AsyncRead/AsyncWrite delegations), and
* crates/shadowsocks/src/relay/tcprelay/crypto_io.rs
  (DecryptedReader, EncryptedWriter, CryptoStream::from_stream and
  set_request_nonce).

Bytes are modelled as natural numbers (values below 256); the u16
arithmetic of the DNS length parser never overflows on byte inputs, so
plain Nat arithmetic is exact.  External collaborators (the OS socket,
the family-specific cipher readers/writers, the ACL predicate, the nonce
generator of the context) are passed in as explicit functions, and
side effects on them (ACL calls, report_failure, generate_nonce calls)
are returned as explicit traces.  A Rust panic is modelled as
Option.none / a dedicated constructor, so the panicking paths of the
source are visible in the embedding.
-/

namespace SS

/-- Poll result of a tokio-style non-blocking operation: Ready or Pending. -/
inductive Poll (α : Type) where
  | ready (a : α)
  | pending
deriving DecidableEq

/-- Result of a fallible I/O operation (io::Result); errors are abstract codes. -/
inductive IoResult (α : Type) where
  | ok (a : α)
  | err (e : Nat)
deriving DecidableEq

/-- DNS length parser of the source, auto_proxy_stream.rs line 165:
`let len: u16 = ((lenbyte[0] as u16) << 2) + (lenbyte[1] as u16);`.
On byte inputs (below 256) the u16 arithmetic never overflows, so the
Nat expression `b0 * 4 + b1` is exact. -/
def dnsMsgLen (b0 b1 : Nat) : Nat := b0 * 4 + b1

/-- Modelled from the spec: the DNS-over-TCP length prefix is the big-endian
16-bit value `(b[0] << 8) | b[1]` (spec section 4.5, open question; claims C1).
This definition follows the spec's words and is compared against the
source's `dnsMsgLen` above. -/
def dnsMsgLenSpec (b0 b1 : Nat) : Nat := b0 * 256 + b1

/-- Result of one `check_dns_msg` call: the per-connection DNS buffer
(`para.dnsByte`) after the call, and the trace of arguments handed to
`acl.check_dns_msg`. -/
structure DnsCheckResult where
  buffer : List Nat
  aclCalls : List (List Nat)
deriving DecidableEq

/-- Embeds `AutoProxyClientStream::check_dns_msg` (auto_proxy_stream.rs
lines 163-186).  `acl` is the shared `context.acl` (an Option of the ACL
predicate `check_dns_msg`), `buffer` the DNS buffer before the call and
`data` the just-read bytes.  The source slices `data[0..2]` and
`data[2..len+2]` with panicking index operators; a panic is modelled as
`Option.none`.  The source appends the sliced message to the buffer,
hands the buffer-after-append (equal to the slice when the buffer was
empty) to the ACL when one is installed, and clears the buffer when the
ACL returns true. -/
def check_dns_msg (acl : Option (List Nat → Bool)) (buffer : List Nat) (data : List Nat) :
    Option DnsCheckResult :=
  match data with
  | b0 :: b1 :: rest =>
    if dnsMsgLen b0 b1 ≤ rest.length then
      let msg := rest.take (dnsMsgLen b0 b1)
      let newBuf := buffer ++ msg
      let checked := if 0 < buffer.length then newBuf else msg
      match acl with
      | some f => some { buffer := if f checked then [] else newBuf, aclCalls := [checked] }
      | none => some { buffer := newBuf, aclCalls := [] }
    else
      none
  | _ => none

/-- The two variants of `AutoProxyClientStream` (auto_proxy_stream.rs lines 36-47). -/
inductive Variant where
  | proxied
  | bypassed
deriving DecidableEq

/-- State of one `AutoProxyClientStream`: its variant, the `ProxyPara`
fields `is_dns` and `dnsByte` (lines 48-52), and the state of the inner
stream (a `ProxyClientStream` or raw `TcpStream`), abstracted as a Nat. -/
structure AutoStream where
  variant : Variant
  is_dns : Bool
  dnsByte : List Nat
  inner : Nat
deriving DecidableEq

/-- Outcome of one `poll_read` call on an `AutoProxyClientStream`: the new
stream state, the returned `Poll` value, the bytes in the caller's
`ReadBuf`, the trace of ACL calls made by the sniffer, and whether the
call invoked `futures::executor::block_on` from inside the poll
(auto_proxy_stream.rs line 215). -/
structure ReadOutcome where
  stream : AutoStream
  result : Poll (IoResult Unit)
  filled : List Nat
  aclCalls : List (List Nat)
  usedBlockOn : Bool
deriving DecidableEq

/-- Core of `AutoProxyClientStream::poll_read` (auto_proxy_stream.rs lines
189-224) applied to the inner stream's poll outcome `(inner', result,
filled)`.  On `Ready(Ok(_))` with `is_dns` and more than 2 filled bytes
the source copies the filled bytes and runs
`block_on(check_dns_msg(para, nd))`; a panic inside that call is
`Option.none`.  All other outcomes are returned unchanged with no
sniffing. -/
def pollReadStep (acl : Option (List Nat → Bool)) (s : AutoStream) (i : Nat) :
    Poll (IoResult Unit) → List Nat → Option ReadOutcome
  | Poll.ready (IoResult.ok a), filled =>
    if s.is_dns = true ∧ 2 < filled.length then
      match check_dns_msg acl s.dnsByte filled with
      | some r =>
          some { stream := { s with inner := i, dnsByte := r.buffer },
                 result := Poll.ready (IoResult.ok a), filled := filled,
                 aclCalls := r.aclCalls, usedBlockOn := true }
      | none => none
    else
      some { stream := { s with inner := i }, result := Poll.ready (IoResult.ok a),
             filled := filled, aclCalls := [], usedBlockOn := false }
  | Poll.ready (IoResult.err e), filled =>
      some { stream := { s with inner := i }, result := Poll.ready (IoResult.err e),
             filled := filled, aclCalls := [], usedBlockOn := false }
  | Poll.pending, filled =>
      some { stream := { s with inner := i }, result := Poll.pending,
             filled := filled, aclCalls := [], usedBlockOn := false }

/-- `AutoProxyClientStream::poll_read`: delegate to the active variant's
inner stream (`ir`, mapping the inner state to its new state, poll result
and filled bytes), then run the DNS sniffing step. -/
def AutoStream.poll_read (acl : Option (List Nat → Bool)) (s : AutoStream)
    (ir : Nat → Nat × Poll (IoResult Unit) × List Nat) : Option ReadOutcome :=
  pollReadStep acl s (ir s.inner).1 (ir s.inner).2.1 (ir s.inner).2.2

/-- Modelled from the spec: section 4.5 step 2 — while the buffer holds at
least `2 + len` bytes (`len` the big-endian length prefix), extract one
full message, hand it to the ACL and remove it from the buffer.  Fuel
bounds the recursion; `(buffer ++ data).length` fuel always suffices
because every iteration removes at least 2 bytes. -/
def dnsSpecStep : Nat → List Nat → List Nat × List (List Nat)
  | 0, buf => (buf, [])
  | fuel + 1, buf =>
    match buf with
    | b0 :: b1 :: rest =>
      if dnsMsgLenSpec b0 b1 ≤ rest.length then
        let msg := rest.take (dnsMsgLenSpec b0 b1)
        let next := dnsSpecStep fuel (rest.drop (dnsMsgLenSpec b0 b1))
        (next.1, msg :: next.2)
      else
        (buf, [])
    | _ => (buf, [])

/-- Modelled from the spec: section 4.5 steps 1-2 — append the just-read
bytes to the buffer, then run the extraction loop.  Returns the final
buffer and the list of messages delivered to the ACL. -/
def dnsSpecProcess (buffer data : List Nat) : List Nat × List (List Nat) :=
  dnsSpecStep (buffer ++ data).length (buffer ++ data)

/-- `AutoProxyClientStream::poll_write` (auto_proxy_stream.rs lines 227-232):
pure delegation to the active variant's inner stream. -/
def AutoStream.poll_write (s : AutoStream) (iw : Nat → Nat × Poll (IoResult Nat)) :
    Poll (IoResult Nat) × AutoStream :=
  ((iw s.inner).2, { s with inner := (iw s.inner).1 })

/-- `AutoProxyClientStream::poll_flush` (lines 234-239): pure delegation. -/
def AutoStream.poll_flush (s : AutoStream) (ifl : Nat → Nat × Poll (IoResult Unit)) :
    Poll (IoResult Unit) × AutoStream :=
  ((ifl s.inner).2, { s with inner := (ifl s.inner).1 })

/-- `AutoProxyClientStream::poll_shutdown` (lines 241-246): pure delegation. -/
def AutoStream.poll_shutdown (s : AutoStream) (ish : Nat → Nat × Poll (IoResult Unit)) :
    Poll (IoResult Unit) × AutoStream :=
  ((ish s.inner).2, { s with inner := (ish s.inner).1 })

/-- `AutoProxyClientStream::poll_write_vectored` (lines 248-257): pure delegation. -/
def AutoStream.poll_write_vectored (s : AutoStream) (ivw : Nat → Nat × Poll (IoResult Nat)) :
    Poll (IoResult Nat) × AutoStream :=
  ((ivw s.inner).2, { s with inner := (ivw s.inner).1 })

/-- `AutoProxyClientStream::local_addr` (lines 134-139): takes the stream by
shared reference, so the state is returned unchanged. -/
def AutoStream.local_addr (s : AutoStream) (ia : Nat → IoResult Nat) :
    IoResult Nat × AutoStream :=
  (ia s.inner, s)

/-- `AutoProxyClientStream::set_nodelay` (lines 141-146): shared reference,
state unchanged. -/
def AutoStream.set_nodelay (s : AutoStream) (nd : Bool) (isn : Nat → Bool → IoResult Unit) :
    IoResult Unit × AutoStream :=
  (isn s.inner nd, s)

/-- `AutoProxyIo::is_proxied` for `AutoProxyClientStream` (lines 149-153):
`matches!(*self, AutoProxyClientStream::Proxied { .. })`. -/
def AutoStream.is_proxied (s : AutoStream) : Bool :=
  match s.variant with
  | .proxied => true
  | .bypassed => false

/-- Outcome of a connect attempt of an inner stream (the external TCP or
proxy connect primitive): the established inner-stream state or an error. -/
inductive InnerConnect where
  | ok (inner : Nat)
  | err (e : Nat)
deriving DecidableEq

/-- Outcome of `AutoProxyClientStream::{connect, connect_bypassed,
connect_proxied}`: the constructed stream or the propagated error. -/
inductive ConnectOutcome where
  | ok (s : AutoStream)
  | err (e : Nat)
deriving DecidableEq

/-- The tcp score of the chosen server (`server.tcp_score()`), reduced to
the number of `report_failure` calls it has observed. -/
structure Selector where
  failures : Nat
deriving DecidableEq

/-- `Score::report_failure` on the selected server: one observed failure. -/
def Selector.report_failure (sel : Selector) : Selector :=
  { failures := sel.failures + 1 }

/-- `AutoProxyClientStream::connect_bypassed` (auto_proxy_stream.rs lines
82-98): connect directly (`tc` is the external TCP connect outcome); on
success build the `Bypassed` variant with
`ProxyPara::default(context, port == 53)` (lines 54-60: `is_dns` from the
port test, `dnsByte` a fresh empty Vec); on failure propagate the error
(the `?` operator) without touching any selector. -/
def connect_bypassed (tc : InnerConnect) (port : Nat) : ConnectOutcome :=
  match tc with
  | .ok i => .ok { variant := .bypassed, is_dns := port == 53, dnsByte := [], inner := i }
  | .err e => .err e

/-- `AutoProxyClientStream::connect_proxied` (lines 101-132): connect a
`ProxyClientStream` (`pc` is the external proxy connect outcome); on
failure call `server.tcp_score().report_failure()` and return the error;
on success build the `Proxied` variant with
`ProxyPara::default(context, port == 53)` and leave the selector alone. -/
def connect_proxied (pc : InnerConnect) (port : Nat) (sel : Selector) :
    ConnectOutcome × Selector :=
  match pc with
  | .ok i => (.ok { variant := .proxied, is_dns := port == 53, dnsByte := [], inner := i }, sel)
  | .err e => (.err e, sel.report_failure)

/-- `AutoProxyClientStream::connect` (lines 65-79): evaluate
`context.check_target_bypassed(&addr)` (`byp` is its result) and dispatch
to `connect_bypassed` or `connect_proxied`. -/
def connect (byp : Bool) (tc pc : InnerConnect) (port : Nat) (sel : Selector) :
    ConnectOutcome × Selector :=
  if byp then (connect_bypassed tc port, sel)
  else connect_proxied pc port sel

/-- `StreamType` of crypto_io.rs lines 28-33. -/
inductive StreamType where
  | client
  | server
deriving DecidableEq

/-- `CipherCategory` of the crypto crate, as dispatched on by crypto_io.rs
(all cipher features enabled). -/
inductive CipherCategory where
  | none
  | stream
  | aead
  | aead2022
deriving DecidableEq

/-- A `CipherKind` reduced to what crypto_io.rs consults: its category and
its `iv_len` / `salt_len`. -/
structure CipherKind where
  category : CipherCategory
  iv_len : Nat
  salt_len : Nat
deriving DecidableEq

/-- `DecryptedReader` of crypto_io.rs lines 37-44; the family-specific
readers are external, modelled as carrying their constructor arguments. -/
inductive DecryptedReader where
  | none
  | aead (method : CipherKind) (key : List Nat)
  | stream (method : CipherKind) (key : List Nat)
  | aead2022 (ty : StreamType) (method : CipherKind) (key : List Nat)
deriving DecidableEq

/-- `DecryptedReader::new` (lines 48-61): dispatch on the method's category. -/
def DecryptedReader.new (ty : StreamType) (method : CipherKind) (key : List Nat) :
    DecryptedReader :=
  match method.category with
  | .stream => .stream method key
  | .aead => .aead method key
  | .none => .none
  | .aead2022 => .aead2022 ty method key

/-- `DecryptedReader::poll_read_decrypted` (lines 64-83): the `None` variant
delegates to `Pin::new(stream).poll_read(cx, buf)` — `underlying` is that
outcome (poll result and filled bytes) — while the family variants call
their external readers, abstracted as `fam`. -/
def DecryptedReader.poll_read_decrypted
    (fam : DecryptedReader → Poll (IoResult Unit) × List Nat)
    (underlying : Poll (IoResult Unit) × List Nat) (r : DecryptedReader) :
    Poll (IoResult Unit) × List Nat :=
  match r with
  | .stream m k => fam (.stream m k)
  | .aead m k => fam (.aead m k)
  | .none => underlying
  | .aead2022 ty m k => fam (.aead2022 ty m k)

/-- `EncryptedWriter` of crypto_io.rs lines 111-118; family writers carry
their constructor arguments, the AEAD-2022 writer additionally its
request-salt slot (set by `set_request_salt`). -/
inductive EncryptedWriter where
  | none
  | aead (method : CipherKind) (key : List Nat) (salt : List Nat)
  | stream (method : CipherKind) (key : List Nat) (iv : List Nat)
  | aead2022 (ty : StreamType) (method : CipherKind) (key : List Nat) (salt : List Nat)
      (requestSalt : Option (List Nat))
deriving DecidableEq

/-- `EncryptedWriter::new` (lines 122-137): dispatch on the method's
category, handing the freshly generated nonce to the family writer. -/
def EncryptedWriter.new (ty : StreamType) (method : CipherKind) (key nonce : List Nat) :
    EncryptedWriter :=
  match method.category with
  | .stream => .stream method key nonce
  | .aead => .aead method key nonce
  | .none => .none
  | .aead2022 => .aead2022 ty method key nonce Option.none

/-- `EncryptedWriter::poll_write_encrypted` (lines 140-158): the `None`
variant delegates to `Pin::new(stream).poll_write(cx, buf)`
(`underlying`), the family variants call their external writers (`fam`). -/
def EncryptedWriter.poll_write_encrypted
    (fam : EncryptedWriter → Poll (IoResult Nat))
    (underlying : Poll (IoResult Nat)) (w : EncryptedWriter) :
    Poll (IoResult Nat) :=
  match w with
  | .stream m k iv => fam (.stream m k iv)
  | .aead m k salt => fam (.aead m k salt)
  | .none => underlying
  | .aead2022 ty m k salt r => fam (.aead2022 ty m k salt r)

/-- `EncryptedWriter::nonce` (lines 161-170): the sent IV (Stream) or salt
(AEAD, AEAD-2022); `&[]` for the `None` variant. -/
def EncryptedWriter.nonce (w : EncryptedWriter) : List Nat :=
  match w with
  | .stream _ _ iv => iv
  | .aead _ _ salt => salt
  | .none => []
  | .aead2022 _ _ _ salt _ => salt

/-- True exactly on the `Aead2022` variant of `EncryptedWriter`. -/
def EncryptedWriter.isAead2022 (w : EncryptedWriter) : Bool :=
  match w with
  | .aead2022 _ _ _ _ _ => true
  | _ => false

/-- Outcome of `EncryptedWriter::set_request_nonce`: either the updated
writer, or the Rust panic of the catch-all arm. -/
inductive SetNonceOutcome where
  | panicked
  | ok (w : EncryptedWriter)
deriving DecidableEq

/-- `EncryptedWriter::set_request_nonce` (crypto_io.rs lines 173-182): the
`Aead2022` variant stores the request salt via `set_request_salt`; every
other variant hits the catch-all arm, which panics with the message
"only AEAD-2022 cipher could send request salt". -/
def EncryptedWriter.set_request_nonce (w : EncryptedWriter) (request_nonce : List Nat) :
    SetNonceOutcome :=
  match w with
  | .aead2022 ty m k salt _ => .ok (.aead2022 ty m k salt (some request_nonce))
  | .none => .panicked
  | .aead _ _ _ => .panicked
  | .stream _ _ _ => .panicked

/-- `CryptoStream` (crypto_io.rs lines 186-191); the underlying stream is
abstracted as a Nat. -/
structure CryptoStream where
  stream : Nat
  dec : DecryptedReader
  enc : EncryptedWriter
  method : CipherKind
deriving DecidableEq

/-- The `prev_len` computed by `CryptoStream::from_stream` (lines 209-216):
the method's `iv_len` for Stream, `salt_len` for the AEAD families. -/
def prevNonceLen (method : CipherKind) : Nat :=
  match method.category with
  | .stream => method.iv_len
  | .aead => method.salt_len
  | .none => 0
  | .aead2022 => method.salt_len

/-- `CryptoStream::from_stream` (crypto_io.rs lines 195-248).  `gen` is the
external `context.generate_nonce(method, buf, check_repeat)` filling a
byte buffer in place.  For the `None` category the fast path installs the
pass-through reader and writer (`new_none`, lines 250-257) without a
nonce; otherwise a `prev_len`-byte zero buffer is created, filled by
`generate_nonce(method, buf, true)`, and handed to `EncryptedWriter::new`.
The second component is the trace of `generate_nonce` calls as
`(method, buffer length, check_repeat)` triples. -/
def CryptoStream.from_stream (gen : CipherKind → List Nat → Bool → List Nat)
    (st : Nat) (ty : StreamType) (method : CipherKind) (key : List Nat) :
    CryptoStream × List (CipherKind × Nat × Bool) :=
  if method.category = CipherCategory.none then
    ({ stream := st, dec := .none, enc := .none, method := method }, [])
  else
    let prev_len := prevNonceLen method
    let iv :=
      match method.category with
      | .stream => gen method (List.replicate prev_len 0) true
      | .aead => gen method (List.replicate prev_len 0) true
      | .none => []
      | .aead2022 => gen method (List.replicate prev_len 0) true
    ({ stream := st,
       dec := DecryptedReader.new ty method key,
       enc := EncryptedWriter.new ty method key iv,
       method := method },
     [(method, prev_len, true)])

/-- `CryptoStream::set_request_nonce` (crypto_io.rs lines 292-296):
delegates to the writer's setter; the panic of the writer propagates. -/
def CryptoStream.set_request_nonce (cs : CryptoStream) (n : List Nat) :
    Option CryptoStream :=
  match cs.enc.set_request_nonce n with
  | .panicked => Option.none
  | .ok e => some { cs with enc := e }

/-- C1: the claim says the DNS-over-TCP length is parsed as the big-endian
value `(b[0] << 8) | b[1]`; the source (auto_proxy_stream.rs line 165)
computes `(b[0] << 2) | b[1]` instead.  At the length bytes `0x01 0x00`
the source parser yields 4 where the documented big-endian form yields
256, exhibiting the code bug the spec flags. -/
theorem C1_dns_len_shift :
    dnsMsgLen 1 0 = 4 ∧ dnsMsgLenSpec 1 0 = 256 ∧ dnsMsgLen 1 0 ≠ dnsMsgLenSpec 1 0 := by
  decide

/-- C2 counterexample: the claim says `set_request_nonce` on a non-AEAD-2022
writer returns a recoverable `NotPermitted` error and does not abort; on
the pass-through (`None`) writer the source instead takes the panicking
catch-all arm, refuting the claim at this concrete input. -/
theorem C2_set_request_nonce_cex :
    EncryptedWriter.set_request_nonce EncryptedWriter.none [0] = SetNonceOutcome.panicked := by
  decide

/-- C2 (amended): for every `EncryptedWriter` that is not the `Aead2022`
variant, `set_request_nonce` panics (crypto_io.rs line 179) — it never
returns, so in particular no modified writer is ever produced. -/
theorem C2_set_request_nonce_panics :
    ∀ (w : EncryptedWriter) (n : List Nat),
      w.isAead2022 = false → w.set_request_nonce n = SetNonceOutcome.panicked := by
  intro w n h
  cases w with
  | none => rfl
  | aead m k salt => rfl
  | stream m k iv => rfl
  | aead2022 ty m k salt r => simp [EncryptedWriter.isAead2022] at h

/-- Witness for C2: the amended theorem applied to the AEAD writer. -/
theorem C2_set_request_nonce_panics_witness :
    EncryptedWriter.set_request_nonce
        (EncryptedWriter.aead { category := CipherCategory.aead, iv_len := 12, salt_len := 32 }
          [] []) [1, 2] =
      SetNonceOutcome.panicked :=
  C2_set_request_nonce_panics
    (EncryptedWriter.aead { category := CipherCategory.aead, iv_len := 12, salt_len := 32 } [] [])
    [1, 2] rfl

/-- C3 counterexample: the claim says every complete length-prefixed message
in the buffered data is extracted and delivered to the ACL exactly once.
Feeding one read containing two complete messages `00 01 0A` and
`00 01 14` to a port-53 stream, the source's `poll_read` makes exactly
one ACL call with the first message only, while the spec's extraction
loop delivers both messages; the two traces differ. -/
theorem C3_dns_loop_cex :
    AutoStream.poll_read (some (fun _ => false))
        { variant := Variant.bypassed, is_dns := true, dnsByte := [], inner := 0 }
        (fun i => (i, Poll.ready (IoResult.ok ()), [0, 1, 10, 0, 1, 20])) =
      some { stream := { variant := Variant.bypassed, is_dns := true, dnsByte := [10], inner := 0 },
             result := Poll.ready (IoResult.ok ()), filled := [0, 1, 10, 0, 1, 20],
             aclCalls := [[10]], usedBlockOn := true } ∧
    (dnsSpecProcess [] [0, 1, 10, 0, 1, 20]).2 = [[10], [20]] ∧
    ([[10]] : List (List Nat)) ≠ [[10], [20]] := by
  decide

/-- C9: the claim says no poll entry point ever calls into a blocking
executor; on a port-53 stream whose inner read returns `Ready(Ok)` with
the 3 bytes `00 01 0A`, the source's `poll_read` reaches
`block_on(check_dns_msg(..))` (auto_proxy_stream.rs line 215) — a
blocking executor invoked from inside the poll — refuting the claim. -/
theorem C9_block_on_in_poll :
    (AutoStream.poll_read Option.none
          { variant := Variant.bypassed, is_dns := true, dnsByte := [], inner := 0 }
          (fun i => (i, Poll.ready (IoResult.ok ()), [0, 1, 10]))).map
        (fun o => o.usedBlockOn) =
      some true := by
  decide

/-- C3 (amended): after a successful read that fills more than 2 bytes on a
port-53 stream with the ACL installed, the source parses `len` from the
first two filled bytes with its `(b0 << 2) | b1` parser, extracts only
bytes `2 .. 2+len` of this read (provided they fit), appends them to the
DNS buffer, and makes exactly one ACL call whose argument is the buffer
content after the append; the buffer is cleared iff the ACL returns true.
At most one message is inspected per read; any further bytes of the same
read are never delivered. -/
theorem C3_dns_single_message :
    ∀ (f : List Nat → Bool) (s : AutoStream)
      (ir : Nat → Nat × Poll (IoResult Unit) × List Nat) (i b0 b1 : Nat) (rest : List Nat),
      ir s.inner = (i, Poll.ready (IoResult.ok ()), b0 :: b1 :: rest) →
      s.is_dns = true →
      rest ≠ [] →
      dnsMsgLen b0 b1 ≤ rest.length →
      AutoStream.poll_read (some f) s ir =
        some { stream := { s with
                           inner := i,
                           dnsByte := (if f (s.dnsByte ++ rest.take (dnsMsgLen b0 b1)) then []
                             else s.dnsByte ++ rest.take (dnsMsgLen b0 b1)) },
               result := Poll.ready (IoResult.ok ()), filled := b0 :: b1 :: rest,
               aclCalls := [s.dnsByte ++ rest.take (dnsMsgLen b0 b1)],
               usedBlockOn := true } := by
  intro f s ir i b0 b1 rest hir hdns hne hlen
  have h2 : 2 < (b0 :: b1 :: rest).length := by
    have h0 : 0 < rest.length := List.length_pos.mpr hne
    simp only [List.length_cons]
    omega
  have hchk : check_dns_msg (some f) s.dnsByte (b0 :: b1 :: rest) =
      some { buffer := (if f (s.dnsByte ++ rest.take (dnsMsgLen b0 b1)) then []
               else s.dnsByte ++ rest.take (dnsMsgLen b0 b1)),
             aclCalls := [s.dnsByte ++ rest.take (dnsMsgLen b0 b1)] } := by
    simp only [check_dns_msg]
    rw [if_pos hlen]
    cases hb : s.dnsByte with
    | nil => simp
    | cons x xs => simp
  unfold AutoStream.poll_read
  rw [hir]
  dsimp only
  simp only [pollReadStep]
  rw [if_pos ⟨hdns, h2⟩]
  simp only [hchk]

/-- Witness for C3: the amended theorem on the read `00 02 07 08` with an
ACL that answers locally, clearing the buffer. -/
theorem C3_dns_single_message_witness :
    AutoStream.poll_read (some (fun _ => true))
        { variant := Variant.bypassed, is_dns := true, dnsByte := [], inner := 0 }
        (fun i => (i, Poll.ready (IoResult.ok ()), [0, 2, 7, 8])) =
      some { stream := { variant := Variant.bypassed, is_dns := true, dnsByte := [], inner := 0 },
             result := Poll.ready (IoResult.ok ()), filled := [0, 2, 7, 8],
             aclCalls := [[7, 8]], usedBlockOn := true } :=
  C3_dns_single_message (fun _ => true)
    { variant := Variant.bypassed, is_dns := true, dnsByte := [], inner := 0 }
    (fun i => (i, Poll.ready (IoResult.ok ()), [0, 2, 7, 8])) 0 0 2 [7, 8] rfl rfl
    (by decide) (by decide)

/-- C6: whenever `poll_read` returns (does not panic), the filled bytes and
the poll result it reports are exactly those produced by the underlying
variant's read — the DNS sniffer never modifies either. -/
theorem C6_read_transparent :
    ∀ (acl : Option (List Nat → Bool)) (s : AutoStream)
      (ir : Nat → Nat × Poll (IoResult Unit) × List Nat) (o : ReadOutcome),
      AutoStream.poll_read acl s ir = some o →
      o.filled = (ir s.inner).2.2 ∧ o.result = (ir s.inner).2.1 := by
  intro acl s ir o h
  unfold AutoStream.poll_read at h
  rcases hir : ir s.inner with ⟨i, res, fl⟩
  rw [hir] at h
  dsimp only at h ⊢
  cases res with
  | pending =>
      simp only [pollReadStep] at h
      injection h with h'
      subst h'
      exact ⟨rfl, rfl⟩
  | ready a =>
    cases a with
    | err e =>
        simp only [pollReadStep] at h
        injection h with h'
        subst h'
        exact ⟨rfl, rfl⟩
    | ok u =>
        simp only [pollReadStep] at h
        by_cases hd : s.is_dns = true ∧ 2 < fl.length
        · rw [if_pos hd] at h
          cases hc : check_dns_msg acl s.dnsByte fl with
          | none =>
              simp only [hc] at h
              exact Option.noConfusion h
          | some r =>
              simp only [hc] at h
              injection h with h'
              subst h'
              exact ⟨rfl, rfl⟩
        · rw [if_neg hd] at h
          injection h with h'
          subst h'
          exact ⟨rfl, rfl⟩

/-- Witness for C6: a pending inner read on a non-DNS stream. -/
theorem C6_read_transparent_witness :
    ([5] : List Nat) = [5] ∧ (Poll.pending : Poll (IoResult Unit)) = Poll.pending :=
  C6_read_transparent Option.none
    { variant := Variant.proxied, is_dns := false, dnsByte := [], inner := 0 }
    (fun i => (i, Poll.pending, [5]))
    { stream := { variant := Variant.proxied, is_dns := false, dnsByte := [], inner := 0 },
      result := Poll.pending, filled := [5], aclCalls := [], usedBlockOn := false }
    rfl

/-- C8: every operation of an `AutoProxyClientStream` — write, flush,
shutdown, vectored write, local_addr, set_nodelay, and every non-panicking
read — preserves the `Proxied`/`Bypassed` variant, so `is_proxied()`
returns the same value on every call after construction. -/
theorem C8_is_proxied_const :
    ∀ (s : AutoStream) (iw ivw : Nat → Nat × Poll (IoResult Nat))
      (ifl ish : Nat → Nat × Poll (IoResult Unit)) (ia : Nat → IoResult Nat)
      (nd : Bool) (isn : Nat → Bool → IoResult Unit)
      (acl : Option (List Nat → Bool)) (ir : Nat → Nat × Poll (IoResult Unit) × List Nat),
      (s.poll_write iw).2.is_proxied = s.is_proxied ∧
      (s.poll_flush ifl).2.is_proxied = s.is_proxied ∧
      (s.poll_shutdown ish).2.is_proxied = s.is_proxied ∧
      (s.poll_write_vectored ivw).2.is_proxied = s.is_proxied ∧
      (s.local_addr ia).2.is_proxied = s.is_proxied ∧
      (s.set_nodelay nd isn).2.is_proxied = s.is_proxied ∧
      (∀ o : ReadOutcome, AutoStream.poll_read acl s ir = some o →
        o.stream.is_proxied = s.is_proxied) := by
  intro s iw ivw ifl ish ia nd isn acl ir
  refine ⟨rfl, rfl, rfl, rfl, rfl, rfl, ?_⟩
  intro o h
  unfold AutoStream.poll_read at h
  rcases hir : ir s.inner with ⟨i, res, fl⟩
  rw [hir] at h
  dsimp only at h
  cases res with
  | pending =>
      simp only [pollReadStep] at h
      injection h with h'
      subst h'
      rfl
  | ready a =>
    cases a with
    | err e =>
        simp only [pollReadStep] at h
        injection h with h'
        subst h'
        rfl
    | ok u =>
        simp only [pollReadStep] at h
        by_cases hd : s.is_dns = true ∧ 2 < fl.length
        · rw [if_pos hd] at h
          cases hc : check_dns_msg acl s.dnsByte fl with
          | none =>
              simp only [hc] at h
              exact Option.noConfusion h
          | some r =>
              simp only [hc] at h
              injection h with h'
              subst h'
              rfl
        · rw [if_neg hd] at h
          injection h with h'
          subst h'
          rfl

/-- Witness for C8: the read conjunct applied to a proxied stream with a
pending inner read. -/
theorem C8_is_proxied_const_witness :
    ({ stream := { variant := Variant.proxied, is_dns := false, dnsByte := [], inner := 0 },
       result := Poll.pending, filled := [], aclCalls := [], usedBlockOn := false } :
      ReadOutcome).stream.is_proxied =
      AutoStream.is_proxied
        { variant := Variant.proxied, is_dns := false, dnsByte := [], inner := 0 } :=
  (C8_is_proxied_const
      { variant := Variant.proxied, is_dns := false, dnsByte := [], inner := 0 }
      (fun i => (i, Poll.pending)) (fun i => (i, Poll.pending))
      (fun i => (i, Poll.pending)) (fun i => (i, Poll.pending))
      (fun _ => IoResult.err 0) false (fun _ _ => IoResult.ok ())
      Option.none (fun i => (i, Poll.pending, []))).2.2.2.2.2.2
    { stream := { variant := Variant.proxied, is_dns := false, dnsByte := [], inner := 0 },
      result := Poll.pending, filled := [], aclCalls := [], usedBlockOn := false }
    rfl

/-- C10: a successful port-53 read that fills `n` bytes with
`2 < n < 2 + len`, where `len` is the length the source parses from the
first two filled bytes, makes `check_dns_msg` slice `data[2..2+len]` out
of bounds and panic: the DNS sniffing path is not total on short reads. -/
theorem C10_short_read_panics :
    ∀ (acl : Option (List Nat → Bool)) (s : AutoStream)
      (ir : Nat → Nat × Poll (IoResult Unit) × List Nat) (b0 b1 : Nat) (rest : List Nat)
      (i : Nat),
      ir s.inner = (i, Poll.ready (IoResult.ok ()), b0 :: b1 :: rest) →
      s.is_dns = true →
      rest ≠ [] →
      rest.length < dnsMsgLen b0 b1 →
      AutoStream.poll_read acl s ir = Option.none := by
  intro acl s ir b0 b1 rest i hir hdns hne hlen
  have h2 : 2 < (b0 :: b1 :: rest).length := by
    have h0 : 0 < rest.length := List.length_pos.mpr hne
    simp only [List.length_cons]
    omega
  have hchk : check_dns_msg acl s.dnsByte (b0 :: b1 :: rest) = Option.none := by
    simp only [check_dns_msg]
    rw [if_neg (by omega)]
  unfold AutoStream.poll_read
  rw [hir]
  dsimp only
  simp only [pollReadStep]
  rw [if_pos ⟨hdns, h2⟩]
  simp only [hchk]

/-- Witness for C10: the read `01 00 09` fills 3 bytes while the parsed
length is 4, so the slice `data[2..6]` is out of bounds and the poll
panics. -/
theorem C10_short_read_panics_witness :
    AutoStream.poll_read Option.none
        { variant := Variant.bypassed, is_dns := true, dnsByte := [], inner := 0 }
        (fun i => (i, Poll.ready (IoResult.ok ()), [1, 0, 9])) = Option.none :=
  C10_short_read_panics Option.none
    { variant := Variant.bypassed, is_dns := true, dnsByte := [], inner := 0 }
    (fun i => (i, Poll.ready (IoResult.ok ()), [1, 0, 9])) 1 0 [9] 0 rfl rfl
    (by decide) (by decide)

/-- C4: when the proxied connect fails, `connect_proxied` invokes
`report_failure` on the selected server exactly once (the failure count
rises by exactly 1) and propagates the connect error; when it succeeds,
the selector is untouched; a bypassed connect failure is propagated
without any `report_failure` call (the selector of a `connect` dispatched
to the bypassed path is returned unchanged). -/
theorem C4_report_failure :
    ∀ (pc tc : InnerConnect) (port : Nat) (sel : Selector),
      (∀ e, pc = InnerConnect.err e →
        connect_proxied pc port sel = (ConnectOutcome.err e, { failures := sel.failures + 1 })) ∧
      (∀ i, pc = InnerConnect.ok i → (connect_proxied pc port sel).2 = sel) ∧
      (∀ e, tc = InnerConnect.err e → connect_bypassed tc port = ConnectOutcome.err e) ∧
      (∀ e, tc = InnerConnect.err e →
        connect true tc pc port sel = (ConnectOutcome.err e, sel)) := by
  intro pc tc port sel
  refine ⟨?_, ?_, ?_, ?_⟩
  · intro e he
    subst he
    rfl
  · intro i hi
    subst hi
    rfl
  · intro e he
    subst he
    rfl
  · intro e he
    subst he
    rfl

/-- Witness for C4: a failing proxied connect reports once and propagates;
a failing bypassed connect propagates without a report. -/
theorem C4_report_failure_witness :
    connect_proxied (InnerConnect.err 5) 80 { failures := 2 } =
      (ConnectOutcome.err 5, { failures := 3 }) ∧
    connect true (InnerConnect.err 7) (InnerConnect.err 5) 80 { failures := 2 } =
      (ConnectOutcome.err 7, { failures := 2 }) :=
  ⟨(C4_report_failure (InnerConnect.err 5) (InnerConnect.err 7) 80 { failures := 2 }).1 5 rfl,
   (C4_report_failure (InnerConnect.err 5) (InnerConnect.err 7) 80 { failures := 2 }).2.2.2 7 rfl⟩

/-- C5: `connect` dispatches on `check_target_bypassed`; when the predicate
is true (and the direct connect succeeds) it returns the `Bypassed`
variant, otherwise (when the proxied connect succeeds) the `Proxied`
variant via the selected server; in both cases the `ProxyPara` has
`is_dns` true iff the target port is 53, and an empty DNS buffer. -/
theorem C5_connect_variant :
    ∀ (byp : Bool) (tc pc : InnerConnect) (port : Nat) (sel : Selector) (i : Nat),
      (byp = true → tc = InnerConnect.ok i →
        connect byp tc pc port sel =
          (ConnectOutcome.ok
            { variant := Variant.bypassed, is_dns := port == 53, dnsByte := [], inner := i },
           sel)) ∧
      (byp = false → pc = InnerConnect.ok i →
        connect byp tc pc port sel =
          (ConnectOutcome.ok
            { variant := Variant.proxied, is_dns := port == 53, dnsByte := [], inner := i },
           sel)) ∧
      ((port == 53) = true ↔ port = 53) := by
  intro byp tc pc port sel i
  refine ⟨?_, ?_, ?_⟩
  · intro hb ht
    subst hb
    subst ht
    rfl
  · intro hb hp
    subst hb
    subst hp
    rfl
  · simp

/-- Witness for C5: a bypassed connect to port 53 yields the `Bypassed`
variant with `is_dns` set and an empty buffer. -/
theorem C5_connect_variant_witness :
    connect true (InnerConnect.ok 4) (InnerConnect.err 0) 53 { failures := 0 } =
      (ConnectOutcome.ok
        { variant := Variant.bypassed, is_dns := (53 == 53), dnsByte := [], inner := 4 },
       { failures := 0 }) :=
  (C5_connect_variant true (InnerConnect.ok 4) (InnerConnect.err 0) 53
      { failures := 0 } 4).1 rfl rfl

/-- C7: `CryptoStream::from_stream` installs the pass-through reader and
writer when the cipher category is `None` (their polls delegate unmodified
to the underlying stream); for every other category it makes exactly one
`generate_nonce(method, buf, check_repeat = true)` call on a buffer of
exactly the method's IV length (Stream) or salt length (AEAD families),
and the `EncryptedWriter` is initialized with the generated value
(assuming `generate_nonce` fills its buffer in place, preserving the
length, as its slice signature guarantees). -/
theorem C7_from_stream :
    ∀ (gen : CipherKind → List Nat → Bool → List Nat) (st : Nat) (ty : StreamType)
      (method : CipherKind) (key : List Nat),
      (method.category = CipherCategory.none →
        CryptoStream.from_stream gen st ty method key =
          ({ stream := st, dec := DecryptedReader.none, enc := EncryptedWriter.none,
             method := method }, [])) ∧
      (∀ (fam : DecryptedReader → Poll (IoResult Unit) × List Nat)
         (u : Poll (IoResult Unit) × List Nat),
        DecryptedReader.poll_read_decrypted fam u DecryptedReader.none = u) ∧
      (∀ (fam : EncryptedWriter → Poll (IoResult Nat)) (u : Poll (IoResult Nat)),
        EncryptedWriter.poll_write_encrypted fam u EncryptedWriter.none = u) ∧
      (method.category ≠ CipherCategory.none →
        (∀ k b c, (gen k b c).length = b.length) →
        (CryptoStream.from_stream gen st ty method key).2 =
          [(method, prevNonceLen method, true)] ∧
        (gen method (List.replicate (prevNonceLen method) 0) true).length =
          prevNonceLen method ∧
        ((CryptoStream.from_stream gen st ty method key).1.enc).nonce =
          gen method (List.replicate (prevNonceLen method) 0) true) := by
  intro gen st ty method key
  refine ⟨?_, ?_, ?_, ?_⟩
  · intro hc
    unfold CryptoStream.from_stream
    rw [if_pos hc]
  · intro fam u
    rfl
  · intro fam u
    rfl
  · intro hc hlen
    refine ⟨?_, ?_, ?_⟩
    · unfold CryptoStream.from_stream
      rw [if_neg hc]
    · rw [hlen]
      exact List.length_replicate _ _
    · unfold CryptoStream.from_stream
      rw [if_neg hc]
      cases hcat : method.category with
      | none => exact absurd hcat hc
      | stream => simp [hcat, EncryptedWriter.new, EncryptedWriter.nonce]
      | aead => simp [hcat, EncryptedWriter.new, EncryptedWriter.nonce]
      | aead2022 => simp [hcat, EncryptedWriter.new, EncryptedWriter.nonce]

/-- Witness for C7: an AEAD method with salt length 32 and an in-place
nonce generator; the trace shows one call with a 32-byte buffer and
check_repeat true, and the writer holds the generated salt. -/
theorem C7_from_stream_witness :
    (CryptoStream.from_stream (fun _ b _ => b) 0 StreamType.client
        { category := CipherCategory.aead, iv_len := 16, salt_len := 32 } []).2 =
      [({ category := CipherCategory.aead, iv_len := 16, salt_len := 32 }, 32, true)] ∧
    (List.replicate 32 (0 : Nat)).length = 32 ∧
    ((CryptoStream.from_stream (fun _ b _ => b) 0 StreamType.client
        { category := CipherCategory.aead, iv_len := 16, salt_len := 32 } []).1.enc).nonce =
      List.replicate 32 0 :=
  (C7_from_stream (fun _ b _ => b) 0 StreamType.client
      { category := CipherCategory.aead, iv_len := 16, salt_len := 32 } []).2.2.2
    (by decide) (fun _ _ _ => rfl)

end SS
